import Mathlib

/-!
Verification development for the layered storage subsystem of the
work-journal repository.

The TypeScript source is shallowly embedded: each storage layer becomes a
pure state-transition function over an explicit model of its backing store,
and the orchestrating repository becomes a function over abstract layer
models whose operations return `Except`.  Platform I/O faults (quota,
permission revocation, corrupt payloads) are idealised away except where a
platform API has documented non-I/O failure semantics (notably
`IDBKeyRange.bound`, which per the IndexedDB specification throws a
`DataError` when the lower key is greater than the upper key).
-/

namespace WorkJournal

/-- `WeekIdentifier` from `src/models/WeeklyData.ts`: ISO year plus ISO week
number, the composite lookup key. -/
structure WeekIdentifier where
  year : Nat
  week : Nat
deriving DecidableEq

/-- `WeeklyData` from `src/models/WeeklyData.ts`: the persisted record. -/
structure WeeklyData where
  weekId : WeekIdentifier
  statusIcon : String
  achievements : String
  challenges : String
deriving DecidableEq

/-- `SaveWeeklyDataInput` from `src/repositories/RepositoryTypes.ts`: the
write-side DTO; the three payload fields are optional. -/
structure SaveWeeklyDataInput where
  weekId : WeekIdentifier
  statusIcon : Option String := none
  achievements : Option String := none
  challenges : Option String := none
deriving DecidableEq

/-- Shape of `DEFAULT_WEEKLY_DATA_VALUES` in `src/models/WeeklyData.defaults.ts`. -/
structure WeeklyDataDefaults where
  statusIcon : String
  achievements : String
  challenges : String

/-- `DEFAULT_WEEKLY_DATA_VALUES`: statusIcon defaults to the Unknown status
icon, achievements and challenges to the empty string. -/
def DEFAULT_WEEKLY_DATA_VALUES : WeeklyDataDefaults :=
  { statusIcon := "❔", achievements := "", challenges := "" }

/-- Strict lexicographic order on composite keys, year major, week minor.
This is exactly how IndexedDB compares the array keys `[year, week]`. -/
def keyLt (a b : WeekIdentifier) : Prop :=
  a.year < b.year ∨ (a.year = b.year ∧ a.week < b.week)

instance : DecidableRel keyLt := fun a b => by
  unfold keyLt; exact inferInstance

/-- Non-strict lexicographic order on composite keys. -/
def keyLe (a b : WeekIdentifier) : Prop :=
  a.year < b.year ∨ (a.year = b.year ∧ a.week ≤ b.week)

instance : DecidableRel keyLe := fun a b => by
  unfold keyLe; exact inferInstance

/-- Non-strict lexicographic order on records by their `weekId`, the order
`getRange` results are required to be sorted in. -/
def recordLe (a b : WeeklyData) : Prop :=
  keyLe a.weekId b.weekId

instance : DecidableRel recordLe := fun a b => by
  unfold recordLe; exact inferInstance

/-- Strict version of `recordLe`. -/
def recordLt (a b : WeeklyData) : Prop :=
  keyLt a.weekId b.weekId

instance : DecidableRel recordLt := fun a b => by
  unfold recordLt; exact inferInstance

instance : IsTotal WeeklyData recordLe where
  total a b := by
    unfold recordLe keyLe; omega

instance : IsTrans WeeklyData recordLe where
  trans a b c hab hbc := by
    unfold recordLe keyLe at *; omega

theorem keyLt_trans {a b c : WeekIdentifier} (hab : keyLt a b) (hbc : keyLt b c) :
    keyLt a c := by
  unfold keyLt at *; omega

theorem keyLt_of_lt_of_le {a b c : WeekIdentifier} (hab : keyLt a b) (hbc : keyLe b c) :
    keyLt a c := by
  unfold keyLt keyLe at *; omega

theorem recordLe_of_recordLt {a b : WeeklyData} (h : recordLt a b) : recordLe a b := by
  unfold recordLt recordLe keyLt keyLe at *; omega

/-! ## IndexedDB layer (`src/repositories/layered/layers/IndexedDBLayer.ts`)

The object store is modelled as the list of stored records in ascending
composite-key order, which is the order IndexedDB keeps records in and the
order `getAll` returns them in.  `toPlainWeekId` is the identity on the
model (the model has no reactive wrapper objects). -/

/-- Errors the IndexedDB layer model can produce.  `dataError` models the
`DataError` DOMException that `IDBKeyRange.bound(lower, upper)` throws when
`lower` is greater than `upper` (IndexedDB specification, section
IDBKeyRange). -/
inductive IdbError where
  | dataError : IdbError
deriving DecidableEq

/-- Point lookup in the object store (the `store.get(compositeKey)` request
of `IndexedDBLayer.get`); `result || null` becomes `Option`. -/
def idbGet (store : List WeeklyData) (weekId : WeekIdentifier) : Option WeeklyData :=
  match store with
  | [] => none
  | e :: rest => if e.weekId = weekId then some e else idbGet rest weekId

/-- The `store.put(dataToSave)` request: insert or replace by the composite
key `[weekId.year, weekId.week]`, keeping the store in key order. -/
def idbPut (store : List WeeklyData) (d : WeeklyData) : List WeeklyData :=
  match store with
  | [] => [d]
  | e :: rest =>
    if keyLt d.weekId e.weekId then d :: e :: rest
    else if d.weekId = e.weekId then d :: rest
    else e :: idbPut rest d

/-- `IndexedDBLayer.save`: read the existing record, merge unset input
fields from it (or from `DEFAULT_WEEKLY_DATA_VALUES` when absent), `put`
the merged record and return it. -/
def idbSave (store : List WeeklyData) (input : SaveWeeklyDataInput) :
    List WeeklyData × WeeklyData :=
  let identifier := input.weekId
  let existing := idbGet store identifier
  let dataToSave : WeeklyData :=
    { weekId := identifier
      statusIcon :=
        input.statusIcon.getD
          ((existing.map WeeklyData.statusIcon).getD DEFAULT_WEEKLY_DATA_VALUES.statusIcon)
      achievements :=
        input.achievements.getD
          ((existing.map WeeklyData.achievements).getD DEFAULT_WEEKLY_DATA_VALUES.achievements)
      challenges :=
        input.challenges.getD
          ((existing.map WeeklyData.challenges).getD DEFAULT_WEEKLY_DATA_VALUES.challenges) }
  (idbPut store dataToSave, dataToSave)

/-- `IndexedDBLayer.getRange`: build
`IDBKeyRange.bound([start.year, start.week], [end.year, end.week])`
(inclusive on both ends) and `getAll` it.  Per the IndexedDB specification
`bound` throws a `DataError` when the lower key is greater than the upper
key; otherwise the request yields the records inside the bound in key
order. -/
def idbGetRange (store : List WeeklyData) (start endk : WeekIdentifier) :
    Except IdbError (List WeeklyData) :=
  if keyLt endk start then
    .error .dataError
  else
    .ok (store.filter (fun e => decide (keyLe start e.weekId ∧ keyLe e.weekId endk)))

/-- `IndexedDBLayer.getByYear`: delegates to
`getRange({year, week: 1}, {year, week: 53})`. -/
def idbGetByYear (store : List WeeklyData) (year : Nat) :
    Except IdbError (List WeeklyData) :=
  idbGetRange store ⟨year, 1⟩ ⟨year, 53⟩

/-- `IndexedDBLayer.getWeeksWithData`: the `year` index `getAllKeys(year)`
request returns the composite primary keys of the records whose
`weekId.year` equals `year`; the layer collects their week components into
a `Set`. -/
def idbGetWeeksWithData (store : List WeeklyData) (year : Nat) : Finset Nat :=
  ((store.filter (fun e => e.weekId.year == year)).map (fun e => e.weekId.week)).toFinset

/-- `IndexedDBLayer.delete`: the `store.delete(compositeKey)` request,
which succeeds whether or not a record with that key exists. -/
def idbDelete (store : List WeeklyData) (weekId : WeekIdentifier) : List WeeklyData :=
  store.filter (fun e => !(decide (e.weekId = weekId)))

/-! ## File-system layer (`FileSystemLayer`, source part naming it
`work-journal-YYYY.json` files)

The user-granted directory is modelled as an association list from file
name to the parsed `YearJournalData` payload of that file.  Reads find the
first entry with the requested name, writes replace the first entry with
that name (or append a new one), and `removeEntry` removes the first entry
with that name — matching a real directory, where names are unique.  File
reads and writes that fail for pure I/O reasons are idealised away; a
missing file reads as `none` exactly as the `NotFoundError` branch of
`readYearFile` returns `null`. -/

/-- `YearJournalData`: payload of one year file, `{ year, weeks }`.  The
`weeks` object has integer-like keys, which JavaScript enumerates in
ascending numeric order; the model keeps the association list sorted by
week number to reflect that enumeration order. -/
structure YearJournalData where
  year : Nat
  weeks : List (Nat × WeeklyData)
deriving DecidableEq

/-- The granted directory: file name to parsed file payload. -/
abbrev FsDirectory := List (String × YearJournalData)

/-- `getFileName`: deterministic file name for a year. -/
def getFileName (year : Nat) : String :=
  "work-journal-" ++ toString year ++ ".json"

/-- Anchored prefix test on the underlying character list. -/
def strTakeEq (s p : String) : Bool :=
  decide (s.data.take p.data.length = p.data)

/-- Anchored suffix test on the underlying character list. -/
def strDropEq (s p : String) : Bool :=
  decide (s.data.drop (s.data.length - p.data.length) = p.data)

/-- Base-10 value of a digit character list (`parseInt(_, 10)` on an
all-digit string). -/
def digitsToNat (cs : List Char) : Nat :=
  cs.foldl (fun n c => n * 10 + (c.toNat - 48)) 0

/-- `parseFileName`: inverse of `getFileName`, the anchored regular
expression match on the pattern `work-journal-(4 digits).json`; `null`
when the name does not match. -/
def parseFileName (fileName : String) : Option Nat :=
  if strTakeEq fileName "work-journal-" && strDropEq fileName ".json" then
    let digits := (fileName.data.drop 13).take (fileName.data.length - 18)
    if digits.length == 4 && digits.all Char.isDigit then some (digitsToNat digits)
    else none
  else none

/-- Lookup of the first directory entry with the given file name. -/
def findEntry (dir : FsDirectory) (name : String) : Option YearJournalData :=
  match dir with
  | [] => none
  | e :: rest => if e.1 = name then some e.2 else findEntry rest name

/-- `readYearFile`: read and parse the file named for `year`; a missing
file is `none` (the NotFoundError branch). -/
def readYearFile (dir : FsDirectory) (year : Nat) : Option YearJournalData :=
  findEntry dir (getFileName year)

/-- `writeYearFile`: `getFileHandle(fileName, { create: true })` plus an
atomic replace of the file content — update the entry named for `year`, or
create it when absent. -/
def writeYearFile (dir : FsDirectory) (year : Nat) (data : YearJournalData) : FsDirectory :=
  match dir with
  | [] => [(getFileName year, data)]
  | e :: rest =>
    if e.1 = getFileName year then (getFileName year, data) :: rest
    else e :: writeYearFile rest year data

/-- `dirHandle.removeEntry(fileName)`: drop the entry with that name; a
missing entry is tolerated (the NotFoundError branch of `delete`). -/
def removeEntry (dir : FsDirectory) (name : String) : FsDirectory :=
  match dir with
  | [] => []
  | e :: rest => if e.1 = name then rest else e :: removeEntry rest name

/-- Lookup of a week number in the `weeks` object
(`yearData.weeks[weekNumber]`). -/
def lookupWeek (weeks : List (Nat × WeeklyData)) (week : Nat) : Option WeeklyData :=
  match weeks with
  | [] => none
  | w :: rest => if w.1 = week then some w.2 else lookupWeek rest week

/-- Assignment `yearData.weeks[weekNumber] = dataToSave` on the
integer-keyed object: replace the key or insert it at its ascending
numeric position. -/
def weeksInsert (weeks : List (Nat × WeeklyData)) (week : Nat) (d : WeeklyData) :
    List (Nat × WeeklyData) :=
  match weeks with
  | [] => [(week, d)]
  | w :: rest =>
    if week < w.1 then (week, d) :: w :: rest
    else if week = w.1 then (week, d) :: rest
    else w :: weeksInsert rest week d

/-- `delete yearData.weeks[weekNumber]` on the integer-keyed object. -/
def weeksRemove (weeks : List (Nat × WeeklyData)) (week : Nat) : List (Nat × WeeklyData) :=
  weeks.filter (fun w => !(decide (w.1 = week)))

/-- `FileSystemLayer.save`: read the year file (or start an empty
`{ year, weeks: {} }` structure), merge unset input fields from the
existing week entry or from `DEFAULT_WEEKLY_DATA_VALUES`, store the merged
record under its week number and write the whole year file back. -/
def fsSave (dir : FsDirectory) (input : SaveWeeklyDataInput) :
    FsDirectory × WeeklyData :=
  let identifier := input.weekId
  let year := identifier.year
  let weekNumber := identifier.week
  let yearData := (readYearFile dir year).getD { year := year, weeks := [] }
  let existing := lookupWeek yearData.weeks weekNumber
  let dataToSave : WeeklyData :=
    { weekId := identifier
      statusIcon :=
        input.statusIcon.getD
          ((existing.map WeeklyData.statusIcon).getD DEFAULT_WEEKLY_DATA_VALUES.statusIcon)
      achievements :=
        input.achievements.getD
          ((existing.map WeeklyData.achievements).getD DEFAULT_WEEKLY_DATA_VALUES.achievements)
      challenges :=
        input.challenges.getD
          ((existing.map WeeklyData.challenges).getD DEFAULT_WEEKLY_DATA_VALUES.challenges) }
  let newYearData : YearJournalData :=
    { year := yearData.year, weeks := weeksInsert yearData.weeks weekNumber dataToSave }
  (writeYearFile dir year newYearData, dataToSave)

/-- `FileSystemLayer.get`: read the year file and look the week up;
`?? null` becomes `Option`. -/
def fsGet (dir : FsDirectory) (weekId : WeekIdentifier) : Option WeeklyData :=
  match readYearFile dir weekId.year with
  | none => none
  | some yearData => lookupWeek yearData.weeks weekId.week

/-- The in-range test of `FileSystemLayer.getRange` for the key built from
the file year and the week number. -/
def fsInRange (weekId start endk : WeekIdentifier) : Prop :=
  (weekId.year > start.year ∨ (weekId.year = start.year ∧ weekId.week ≥ start.week)) ∧
  (weekId.year < endk.year ∨ (weekId.year = endk.year ∧ weekId.week ≤ endk.week))

instance : Decidable (fsInRange w s e) := by
  unfold fsInRange; exact inferInstance

/-- Per-file collection step of `FileSystemLayer.getRange`: the weeks of
one year file whose `(year, week)` key lies inside the range, in the
enumeration order of the `weeks` object. -/
def weeksInRange (year : Nat) (weeks : List (Nat × WeeklyData))
    (start endk : WeekIdentifier) : List WeeklyData :=
  (weeks.filter (fun w => decide (fsInRange ⟨year, w.1⟩ start endk))).map Prod.snd

/-- Contribution of one directory entry to `FileSystemLayer.getRange`:
skip non-`.json` names, skip names that do not parse, skip years outside
`[start.year, end.year]` (the `!year` truthiness test also skips a parsed
year 0), then re-read the year file by name and collect its in-range
weeks. -/
def fsRangeContribution (dir : FsDirectory) (start endk : WeekIdentifier)
    (entry : String × YearJournalData) : List WeeklyData :=
  if strDropEq entry.1 ".json" then
    match parseFileName entry.1 with
    | none => []
    | some year =>
      if year ≠ 0 ∧ start.year ≤ year ∧ year ≤ endk.year then
        match readYearFile dir year with
        | none => []
        | some yearData => weeksInRange year yearData.weeks start endk
      else []
  else []

/-- `FileSystemLayer.getRange`: iterate the directory entries, collect the
in-range weeks of every matching year file, then sort the collected
records ascending by `(year, week)`. -/
def fsGetRange (dir : FsDirectory) (start endk : WeekIdentifier) : List WeeklyData :=
  let results := dir.foldl (fun acc entry => acc ++ fsRangeContribution dir start endk entry) []
  List.insertionSort recordLe results

/-- Order used by the sort in `FileSystemLayer.getByYear`
(`a.weekId.week - b.weekId.week`). -/
def weekFieldLe (a b : WeeklyData) : Prop :=
  a.weekId.week ≤ b.weekId.week

instance : DecidableRel weekFieldLe := fun a b => by
  unfold weekFieldLe; exact inferInstance

/-- `FileSystemLayer.getByYear`: read the year file, take the values of
its `weeks` object and sort them by week number; a missing file yields the
empty array. -/
def fsGetByYear (dir : FsDirectory) (year : Nat) : List WeeklyData :=
  match readYearFile dir year with
  | none => []
  | some yearData => List.insertionSort weekFieldLe (yearData.weeks.map Prod.snd)

/-- `FileSystemLayer.getWeeksWithData`: the key set of the `weeks` object,
or the empty set when the year file is missing. -/
def fsGetWeeksWithData (dir : FsDirectory) (year : Nat) : Finset Nat :=
  match readYearFile dir year with
  | none => ∅
  | some yearData => (yearData.weeks.map Prod.fst).toFinset

/-- `FileSystemLayer.delete`: a missing year file is a no-op; otherwise
remove the week from the year map, delete the whole file when the map
became empty, and rewrite the file with the remaining weeks otherwise. -/
def fsDelete (dir : FsDirectory) (weekId : WeekIdentifier) : FsDirectory :=
  let year := weekId.year
  match readYearFile dir year with
  | none => dir
  | some yearData =>
    let newWeeks := weeksRemove yearData.weeks weekId.week
    if newWeeks = [] then
      removeEntry dir (getFileName year)
    else
      writeYearFile dir year { year := yearData.year, weeks := newWeeks }

/-! ## Orchestrating repository (`src/repositories/layered/LayeredRepository.ts`)

For the orchestration claims a layer is abstract: a bundle of operations
returning `Except` over a backend error (error messages are strings, so
propagating the exact original error is expressible).  The model captures
one repository call against a snapshot of every layer.  The background
sync-coordinator trigger on the read path is fire-and-forget with its
failure swallowed, so it does not affect the returned value and is elided
from the snapshot model, as is the best-effort re-seed of the primary
layer inside `fallbackGet`. -/

/-- Backend-specific error carried by a rejected layer promise. -/
abbrev LayerError := String

/-- Abstract model of one `IWeeklyDataLayer`. -/
structure LayerModel where
  name : String
  priority : Int
  getOp : WeekIdentifier → Except LayerError (Option WeeklyData)
  getRangeOp : WeekIdentifier → WeekIdentifier → Except LayerError (List WeeklyData)
  getByYearOp : Nat → Except LayerError (List WeeklyData)
  getWeeksWithDataOp : Nat → Except LayerError (Finset Nat)
  saveOp : SaveWeeklyDataInput → Except LayerError WeeklyData
  deleteOp : WeekIdentifier → Except LayerError Unit

/-- `LayeredRepositoryConfig` (sync coordinator elided, see above). -/
structure LayeredRepositoryConfig where
  primaryLayer : LayerModel
  secondaryLayers : List LayerModel
  syncWritesImmediately : Bool
  fallbackOnError : Bool

/-- Descending-priority comparison used by
`[...this.secondaryLayers].sort((a, b) => b.priority - a.priority)`. -/
def priorityGe (a b : LayerModel) : Prop :=
  b.priority ≤ a.priority

instance : DecidableRel priorityGe := fun a b => by
  unfold priorityGe; exact inferInstance

instance : IsTotal LayerModel priorityGe where
  total a b := by unfold priorityGe; omega

instance : IsTrans LayerModel priorityGe where
  trans a b c hab hbc := by unfold priorityGe at *; omega

/-- The sorted copy of the secondary layers every fallback helper starts
from (a stable sort, like `Array.prototype.sort`). -/
def sortLayers (layers : List LayerModel) : List LayerModel :=
  List.insertionSort priorityGe layers

/-- Loop body of `fallbackGet`: try each layer in order, skip a layer
whose `get` rejects or resolves to `null`, and return the first found
record (the best-effort write-back of that record into the primary layer
has no observable effect on the returned value). -/
def fallbackGetLoop (layers : List LayerModel) (weekId : WeekIdentifier) :
    Option WeeklyData :=
  match layers with
  | [] => none
  | l :: rest =>
    match l.getOp weekId with
    | .ok (some r) => some r
    | .ok none => fallbackGetLoop rest weekId
    | .error _ => fallbackGetLoop rest weekId

/-- Loop body of `fallbackGetRange`: return the first layer result whose
promise resolves — even an empty array — and fall through to `[]` when
every layer rejects. -/
def fallbackGetRangeLoop (layers : List LayerModel) (start endk : WeekIdentifier) :
    List WeeklyData :=
  match layers with
  | [] => []
  | l :: rest =>
    match l.getRangeOp start endk with
    | .ok v => v
    | .error _ => fallbackGetRangeLoop rest start endk

/-- Loop body of `fallbackGetByYear`. -/
def fallbackGetByYearLoop (layers : List LayerModel) (year : Nat) : List WeeklyData :=
  match layers with
  | [] => []
  | l :: rest =>
    match l.getByYearOp year with
    | .ok v => v
    | .error _ => fallbackGetByYearLoop rest year

/-- Loop body of `fallbackGetWeeksWithData`. -/
def fallbackGetWeeksWithDataLoop (layers : List LayerModel) (year : Nat) : Finset Nat :=
  match layers with
  | [] => ∅
  | l :: rest =>
    match l.getWeeksWithDataOp year with
    | .ok v => v
    | .error _ => fallbackGetWeeksWithDataLoop rest year

/-- `LayeredRepository.get`: primary first; on rejection fall back when
configured, otherwise rethrow the original error. -/
def repoGet (cfg : LayeredRepositoryConfig) (weekId : WeekIdentifier) :
    Except LayerError (Option WeeklyData) :=
  match cfg.primaryLayer.getOp weekId with
  | .ok r => .ok r
  | .error e =>
    if cfg.fallbackOnError then .ok (fallbackGetLoop (sortLayers cfg.secondaryLayers) weekId)
    else .error e

/-- `LayeredRepository.getRange`. -/
def repoGetRange (cfg : LayeredRepositoryConfig) (start endk : WeekIdentifier) :
    Except LayerError (List WeeklyData) :=
  match cfg.primaryLayer.getRangeOp start endk with
  | .ok r => .ok r
  | .error e =>
    if cfg.fallbackOnError then
      .ok (fallbackGetRangeLoop (sortLayers cfg.secondaryLayers) start endk)
    else .error e

/-- `LayeredRepository.getByYear`. -/
def repoGetByYear (cfg : LayeredRepositoryConfig) (year : Nat) :
    Except LayerError (List WeeklyData) :=
  match cfg.primaryLayer.getByYearOp year with
  | .ok r => .ok r
  | .error e =>
    if cfg.fallbackOnError then
      .ok (fallbackGetByYearLoop (sortLayers cfg.secondaryLayers) year)
    else .error e

/-- `LayeredRepository.getWeeksWithData`. -/
def repoGetWeeksWithData (cfg : LayeredRepositoryConfig) (year : Nat) :
    Except LayerError (Finset Nat) :=
  match cfg.primaryLayer.getWeeksWithDataOp year with
  | .ok r => .ok r
  | .error e =>
    if cfg.fallbackOnError then
      .ok (fallbackGetWeeksWithDataLoop (sortLayers cfg.secondaryLayers) year)
    else .error e

/-- The full `SaveWeeklyDataInput` that `syncToSecondaryLayers` builds from
the record the primary layer resolved. -/
def syncInput (d : WeeklyData) : SaveWeeklyDataInput :=
  { weekId := d.weekId
    statusIcon := some d.statusIcon
    achievements := some d.achievements
    challenges := some d.challenges }

/-- `syncToSecondaryLayers`: `Promise.allSettled` over every secondary
layer save — every layer is attempted, each outcome is recorded, and the
joined promise never rejects, in both sync modes. -/
def syncToSecondaryLayers (cfg : LayeredRepositoryConfig) (d : WeeklyData) :
    List (Except LayerError WeeklyData) :=
  cfg.secondaryLayers.map (fun l => l.saveOp (syncInput d))

/-- `LayeredRepository.save`: the awaited primary save decides the outcome
and the returned record; the secondary fan-out (awaited when
`syncWritesImmediately`, fire-and-forget otherwise) only produces the
settled outcome list, which is never surfaced as a failure. -/
def repoSave (cfg : LayeredRepositoryConfig) (input : SaveWeeklyDataInput) :
    Except LayerError (WeeklyData × List (Except LayerError WeeklyData)) :=
  match cfg.primaryLayer.saveOp input with
  | .error e => .error e
  | .ok result => .ok (result, syncToSecondaryLayers cfg result)

/-- `LayeredRepository.delete`: awaited primary delete, then an
all-settled fan-out of the secondary deletes whose failures are
swallowed in both sync modes. -/
def repoDelete (cfg : LayeredRepositoryConfig) (weekId : WeekIdentifier) :
    Except LayerError (List (Except LayerError Unit)) :=
  match cfg.primaryLayer.deleteOp weekId with
  | .error e => .error e
  | .ok _ => .ok (cfg.secondaryLayers.map (fun l => l.deleteOp weekId))

/-! ## Repository factory (`src/repositories/RepositoryFactory.ts`)

`configure` compares the incoming configuration with the stored one using
only `enableFileSystem` and reference equality of `directoryHandle`.
Directory handles are modelled as identity tokens (`Option Nat`), so token
equality is the `!==` reference comparison, including
`undefined === undefined`. -/

/-- `RepositoryConfig` of the factory; the two flags are optional. -/
structure RepositoryConfig where
  enableFileSystem : Bool
  directoryHandle : Option Nat := none
  syncWritesImmediately : Option Bool := none
  fallbackOnError : Option Bool := none
deriving DecidableEq

/-- Value-level description of the repository `createRepository` builds:
an IndexedDB primary layer, an optional file-system secondary layer
holding the given handle, and the resolved option flags. -/
structure BuiltRepository where
  hasFileSystemLayer : Bool
  fileSystemHandle : Option Nat
  conflictResolution : String
  syncWritesImmediately : Bool
  fallbackOnError : Bool
deriving DecidableEq

/-- `RepositoryFactory.createRepository`: defaults are
`syncWritesImmediately: false` and `fallbackOnError: true`;
`conflictResolution` is fixed to last-write-wins. -/
def createRepository (config : RepositoryConfig) : BuiltRepository :=
  { hasFileSystemLayer := config.enableFileSystem
    fileSystemHandle := if config.enableFileSystem then config.directoryHandle else none
    conflictResolution := "last-write-wins"
    syncWritesImmediately := config.syncWritesImmediately.getD false
    fallbackOnError := config.fallbackOnError.getD true }

/-- The mutable static state of `RepositoryFactory`. -/
structure FactoryState where
  instanceR : Option BuiltRepository
  currentConfig : Option RepositoryConfig
deriving DecidableEq

/-- `RepositoryFactory.configure`: recreate the repository only when there
is no stored configuration yet, or `enableFileSystem` differs, or the
directory handle differs by reference; otherwise leave the state as it
is. -/
def factoryConfigure (s : FactoryState) (config : RepositoryConfig) : FactoryState :=
  let needsReconfiguration :=
    match s.currentConfig with
    | none => true
    | some c =>
      c.enableFileSystem != config.enableFileSystem ||
      c.directoryHandle != config.directoryHandle
  if needsReconfiguration then
    { instanceR := some (createRepository config), currentConfig := some config }
  else s

/-! ## Helper lemmas about the store primitives -/

theorem keyLt_irrefl (a : WeekIdentifier) : ¬keyLt a a := by
  unfold keyLt; omega

theorem idbGet_idbPut_self (store : List WeeklyData) (d : WeeklyData) :
    idbGet (idbPut store d) d.weekId = some d := by
  induction store with
  | nil => simp [idbPut, idbGet]
  | cons e rest ih =>
    by_cases h1 : keyLt d.weekId e.weekId
    · simp [idbPut, h1, idbGet]
    · by_cases h2 : d.weekId = e.weekId
      · simp [idbPut, h1, h2, idbGet, keyLt_irrefl]
      · have : ¬(e.weekId = d.weekId) := fun h => h2 h.symm
        simp [idbPut, h1, h2, idbGet, this, ih]

theorem findEntry_writeYearFile_self (dir : FsDirectory) (year : Nat)
    (data : YearJournalData) :
    findEntry (writeYearFile dir year data) (getFileName year) = some data := by
  induction dir with
  | nil => simp [writeYearFile, findEntry]
  | cons e rest ih =>
    by_cases h : e.1 = getFileName year
    · simp [writeYearFile, h, findEntry]
    · simp [writeYearFile, h, findEntry, ih]

theorem findEntry_writeYearFile_other (dir : FsDirectory) (year : Nat)
    (data : YearJournalData) (name : String) (h : name ≠ getFileName year) :
    findEntry (writeYearFile dir year data) name = findEntry dir name := by
  have hgf : ¬(getFileName year = name) := fun hh => h hh.symm
  induction dir with
  | nil => simp [writeYearFile, findEntry, hgf]
  | cons e rest ih =>
    by_cases h1 : e.1 = getFileName year
    · have h2 : ¬(e.1 = name) := by rw [h1]; exact hgf
      simp [writeYearFile, h1, findEntry, hgf, h2]
    · by_cases h2 : e.1 = name
      · simp only [writeYearFile, if_neg h1, findEntry, if_pos h2]
      · simp only [writeYearFile, if_neg h1, findEntry, if_neg h2, ih]

theorem writeYearFile_findEntry_fixed (dir : FsDirectory) (year : Nat)
    (data : YearJournalData) (h : findEntry dir (getFileName year) = some data) :
    writeYearFile dir year data = dir := by
  induction dir with
  | nil => simp [findEntry] at h
  | cons e rest ih =>
    by_cases h1 : e.1 = getFileName year
    · simp only [findEntry, if_pos h1, Option.some.injEq] at h
      simp only [writeYearFile, if_pos h1]
      rw [← h1, ← h]
    · simp only [findEntry, if_neg h1] at h
      simp only [writeYearFile, if_neg h1, ih h]

theorem lookupWeek_weeksInsert_self (weeks : List (Nat × WeeklyData)) (week : Nat)
    (d : WeeklyData) : lookupWeek (weeksInsert weeks week d) week = some d := by
  induction weeks with
  | nil => simp [weeksInsert, lookupWeek]
  | cons w rest ih =>
    by_cases h1 : week < w.1
    · simp [weeksInsert, h1, lookupWeek]
    · by_cases h2 : week = w.1
      · simp [weeksInsert, h1, h2, lookupWeek]
      · have : ¬(w.1 = week) := fun h => h2 h.symm
        simp [weeksInsert, h1, h2, lookupWeek, this, ih]

theorem lookupWeek_weeksRemove_self (weeks : List (Nat × WeeklyData)) (week : Nat) :
    lookupWeek (weeksRemove weeks week) week = none := by
  induction weeks with
  | nil => simp [weeksRemove, lookupWeek]
  | cons w rest ih =>
    by_cases h : w.1 = week
    · simpa [weeksRemove, h] using ih
    · simpa [weeksRemove, h, lookupWeek] using ih

theorem weeksRemove_idem (weeks : List (Nat × WeeklyData)) (week : Nat) :
    weeksRemove (weeksRemove weeks week) week = weeksRemove weeks week := by
  induction weeks with
  | nil => simp [weeksRemove]
  | cons w rest ih =>
    by_cases h : w.1 = week
    · simp only [weeksRemove, List.filter] at ih ⊢
      simp [h, ih]
    · simp only [weeksRemove, List.filter] at ih ⊢
      simp [h, ih]

/-! ## Claim C1: save followed by get merges per the documented policy -/

/-- The merge policy C1 states: supplied fields win; an unsupplied field is
taken from the prior record when one existed, and from the documented
defaults otherwise. -/
def MergeSpec (input : SaveWeeklyDataInput) (prior : Option WeeklyData)
    (result : WeeklyData) : Prop :=
  result.weekId = input.weekId ∧
  (∀ v, input.statusIcon = some v → result.statusIcon = v) ∧
  (input.statusIcon = none → ∀ p, prior = some p → result.statusIcon = p.statusIcon) ∧
  (input.statusIcon = none → prior = none → result.statusIcon = "❔") ∧
  (∀ v, input.achievements = some v → result.achievements = v) ∧
  (input.achievements = none → ∀ p, prior = some p → result.achievements = p.achievements) ∧
  (input.achievements = none → prior = none → result.achievements = "") ∧
  (∀ v, input.challenges = some v → result.challenges = v) ∧
  (input.challenges = none → ∀ p, prior = some p → result.challenges = p.challenges) ∧
  (input.challenges = none → prior = none → result.challenges = "")

theorem mergeSpec_of_getD (wid : WeekIdentifier) (si ach ch : Option String)
    (prior : Option WeeklyData) :
    MergeSpec ⟨wid, si, ach, ch⟩ prior
      ⟨wid,
        si.getD ((prior.map WeeklyData.statusIcon).getD "❔"),
        ach.getD ((prior.map WeeklyData.achievements).getD ""),
        ch.getD ((prior.map WeeklyData.challenges).getD "")⟩ := by
  refine ⟨rfl, ?_, ?_, ?_, ?_, ?_, ?_, ?_, ?_, ?_⟩ <;> (intros; simp_all)

/-- C1: in both concrete layers, `save` followed by `get` on the same key
returns the record the save resolved, and that record satisfies the merge
policy: supplied fields equal the supplied values, un-supplied fields equal
the prior record fields (update) or the documented defaults (create). -/
theorem c1_save_then_get_merges (store : List WeeklyData) (dir : FsDirectory)
    (input : SaveWeeklyDataInput) :
    (idbGet (idbSave store input).1 input.weekId = some (idbSave store input).2 ∧
      MergeSpec input (idbGet store input.weekId) (idbSave store input).2) ∧
    (fsGet (fsSave dir input).1 input.weekId = some (fsSave dir input).2 ∧
      MergeSpec input (fsGet dir input.weekId) (fsSave dir input).2) := by
  refine ⟨⟨?_, ?_⟩, ⟨?_, ?_⟩⟩
  · exact idbGet_idbPut_self store _
  · obtain ⟨wid, si, ach, ch⟩ := input
    simpa [idbSave, DEFAULT_WEEKLY_DATA_VALUES] using
      mergeSpec_of_getD wid si ach ch (idbGet store wid)
  · show fsGet (writeYearFile dir input.weekId.year _) input.weekId = _
    simp only [fsGet, readYearFile, findEntry_writeYearFile_self]
    exact lookupWeek_weeksInsert_self _ _ _
  · obtain ⟨wid, si, ach, ch⟩ := input
    have hprior : fsGet dir wid =
        lookupWeek ((readYearFile dir wid.year).getD
          { year := wid.year, weeks := [] }).weeks wid.week := by
      cases h : readYearFile dir wid.year <;> simp [fsGet, h, lookupWeek]
    dsimp only
    rw [hprior]
    simpa [fsSave, DEFAULT_WEEKLY_DATA_VALUES] using
      mergeSpec_of_getD wid si ach ch
        (lookupWeek ((readYearFile dir wid.year).getD
          { year := wid.year, weeks := [] }).weeks wid.week)

/-- The C1 scenario of the specification: create
`{weekId: {2024,15}, statusIcon: 🙂, achievements: A}`, then update with
`{weekId: {2024,15}, challenges: C}`; the final record read back is
`{🙂, A, C}` in both layers. -/
theorem c1_witness :
    idbGet (idbSave (idbSave [] ⟨⟨2024, 15⟩, some "🙂", some "A", none⟩).1
        ⟨⟨2024, 15⟩, none, none, some "C"⟩).1 ⟨2024, 15⟩ =
      some ⟨⟨2024, 15⟩, "🙂", "A", "C"⟩ ∧
    fsGet (fsSave (fsSave [] ⟨⟨2024, 15⟩, some "🙂", some "A", none⟩).1
        ⟨⟨2024, 15⟩, none, none, some "C"⟩).1 ⟨2024, 15⟩ =
      some ⟨⟨2024, 15⟩, "🙂", "A", "C"⟩ := by
  have h := c1_save_then_get_merges
    (idbSave [] ⟨⟨2024, 15⟩, some "🙂", some "A", none⟩).1
    (fsSave [] ⟨⟨2024, 15⟩, some "🙂", some "A", none⟩).1
    ⟨⟨2024, 15⟩, none, none, some "C"⟩
  exact ⟨h.1.1.trans (by decide), h.2.1.trans (by decide)⟩

/-! ## Claim C7: delete is idempotent in both layers -/

theorem idbGet_idbDelete (store : List WeeklyData) (k : WeekIdentifier) :
    idbGet (idbDelete store k) k = none := by
  induction store with
  | nil => simp [idbDelete, idbGet]
  | cons e rest ih =>
    by_cases h : e.weekId = k
    · simp only [idbDelete, List.filter] at ih ⊢
      simp [h, ih]
    · simp only [idbDelete, List.filter] at ih ⊢
      simp [h, idbGet, ih]

theorem idbDelete_idem (store : List WeeklyData) (k : WeekIdentifier) :
    idbDelete (idbDelete store k) k = idbDelete store k := by
  induction store with
  | nil => simp [idbDelete]
  | cons e rest ih =>
    by_cases h : e.weekId = k
    · simp only [idbDelete, List.filter] at ih ⊢
      simp [h, ih]
    · simp only [idbDelete, List.filter] at ih ⊢
      simp [h, ih]

theorem findEntry_eq_none_of_not_mem (dir : FsDirectory) (name : String)
    (h : name ∉ dir.map Prod.fst) : findEntry dir name = none := by
  induction dir with
  | nil => simp [findEntry]
  | cons e rest ih =>
    simp only [List.map, List.mem_cons, not_or] at h
    have : ¬(e.1 = name) := fun hh => h.1 hh.symm
    simp [findEntry, this, ih h.2]

theorem findEntry_removeEntry_self (dir : FsDirectory) (name : String)
    (hnodup : (dir.map Prod.fst).Nodup) :
    findEntry (removeEntry dir name) name = none := by
  induction dir with
  | nil => simp [removeEntry, findEntry]
  | cons e rest ih =>
    simp only [List.map, List.nodup_cons] at hnodup
    by_cases h : e.1 = name
    · rw [removeEntry, if_pos h]
      exact findEntry_eq_none_of_not_mem rest name (h ▸ hnodup.1)
    · rw [removeEntry, if_neg h, findEntry, if_neg h]
      exact ih hnodup.2

/-- C7: in both layers `delete` completes without error on every state (the
model functions are total; the only error branch of the file-system delete
tolerates a missing file), a second delete of the same key changes nothing
further, `get` after a delete returns absent, and deleting a key whose year
file does not exist leaves the directory untouched.  The directory is
assumed to have pairwise-distinct file names, as any real directory does. -/
theorem c7_delete_idempotent (store : List WeeklyData) (dir : FsDirectory)
    (k : WeekIdentifier) (hnodup : (dir.map Prod.fst).Nodup) :
    (idbGet (idbDelete store k) k = none ∧
      idbDelete (idbDelete store k) k = idbDelete store k) ∧
    (fsGet (fsDelete dir k) k = none ∧
      fsDelete (fsDelete dir k) k = fsDelete dir k ∧
      (readYearFile dir k.year = none → fsDelete dir k = dir)) := by
  refine ⟨⟨idbGet_idbDelete store k, idbDelete_idem store k⟩, ?_, ?_, ?_⟩
  · cases hread : findEntry dir (getFileName k.year) with
    | none => simp [fsDelete, fsGet, readYearFile, hread]
    | some yd =>
      by_cases he : weeksRemove yd.weeks k.week = []
      · have hrm : findEntry (removeEntry dir (getFileName k.year)) (getFileName k.year) = none :=
          findEntry_removeEntry_self dir _ hnodup
        simp [fsDelete, fsGet, readYearFile, hread, he, hrm]
      · simp [fsDelete, fsGet, readYearFile, hread, he,
          findEntry_writeYearFile_self, lookupWeek_weeksRemove_self]
  · cases hread : findEntry dir (getFileName k.year) with
    | none => simp [fsDelete, readYearFile, hread]
    | some yd =>
      by_cases he : weeksRemove yd.weeks k.week = []
      · have hrm : findEntry (removeEntry dir (getFileName k.year)) (getFileName k.year) = none :=
          findEntry_removeEntry_self dir _ hnodup
        simp [fsDelete, readYearFile, hread, he, hrm]
      · have hfind :
            findEntry (writeYearFile dir k.year
              { year := yd.year, weeks := weeksRemove yd.weeks k.week }) (getFileName k.year) =
            some { year := yd.year, weeks := weeksRemove yd.weeks k.week } :=
          findEntry_writeYearFile_self dir k.year _
        have hfix := writeYearFile_findEntry_fixed
          (writeYearFile dir k.year { year := yd.year, weeks := weeksRemove yd.weeks k.week })
          k.year { year := yd.year, weeks := weeksRemove yd.weeks k.week } hfind
        simp [fsDelete, readYearFile, hread, he, hfind, weeksRemove_idem, hfix]
  · intro h
    simp only [readYearFile] at h
    simp [fsDelete, readYearFile, h]

/-- C7 witness: a concrete store and directory holding week `{2024, 15}`
and another week; the theorem applies with every hypothesis discharged. -/
theorem c7_witness :
    ((idbGet (idbDelete [⟨⟨2024, 15⟩, "🙂", "A", ""⟩] ⟨2024, 15⟩) ⟨2024, 15⟩ = none ∧
      idbDelete (idbDelete [⟨⟨2024, 15⟩, "🙂", "A", ""⟩] ⟨2024, 15⟩) ⟨2024, 15⟩ =
        idbDelete [⟨⟨2024, 15⟩, "🙂", "A", ""⟩] ⟨2024, 15⟩) ∧
     (fsGet (fsDelete [("work-journal-2024.json",
        ⟨2024, [(15, ⟨⟨2024, 15⟩, "🙂", "A", ""⟩)]⟩)] ⟨2024, 15⟩) ⟨2024, 15⟩ = none ∧
      fsDelete (fsDelete [("work-journal-2024.json",
        ⟨2024, [(15, ⟨⟨2024, 15⟩, "🙂", "A", ""⟩)]⟩)] ⟨2024, 15⟩) ⟨2024, 15⟩ =
        fsDelete [("work-journal-2024.json",
          ⟨2024, [(15, ⟨⟨2024, 15⟩, "🙂", "A", ""⟩)]⟩)] ⟨2024, 15⟩ ∧
      (readYearFile [("work-journal-2024.json",
          ⟨2024, [(15, ⟨⟨2024, 15⟩, "🙂", "A", ""⟩)]⟩)] (⟨2024, 15⟩ : WeekIdentifier).year = none →
        fsDelete [("work-journal-2024.json",
          ⟨2024, [(15, ⟨⟨2024, 15⟩, "🙂", "A", ""⟩)]⟩)] ⟨2024, 15⟩ =
          [("work-journal-2024.json", ⟨2024, [(15, ⟨⟨2024, 15⟩, "🙂", "A", ""⟩)]⟩)]))) :=
  c7_delete_idempotent [⟨⟨2024, 15⟩, "🙂", "A", ""⟩]
    [("work-journal-2024.json", ⟨2024, [(15, ⟨⟨2024, 15⟩, "🙂", "A", ""⟩)]⟩)]
    ⟨2024, 15⟩ (by decide)

/-! ## Claim C9: per-year file lifecycle in the file-system layer -/

theorem lookupWeek_weeksRemove_other (weeks : List (Nat × WeeklyData)) (week w : Nat)
    (h : w ≠ week) : lookupWeek (weeksRemove weeks week) w = lookupWeek weeks w := by
  induction weeks with
  | nil => simp [weeksRemove]
  | cons p rest ih =>
    have hww : ¬(week = w) := fun hh => h hh.symm
    by_cases hp : p.1 = week
    · have hpnw : ¬(p.1 = w) := by rw [hp]; exact hww
      simp only [weeksRemove, List.filter] at ih ⊢
      simp [hp, lookupWeek, hpnw, ih, hww, h]
    · simp only [weeksRemove, List.filter] at ih ⊢
      by_cases hw : p.1 = w
      · simp [hp, lookupWeek, hw, h, hww]
      · simp [hp, lookupWeek, hw, ih, h, hww]

/-- C9: a save for year `Y` lands in the one file named
`work-journal-Y.json` (created when absent) and touches no other file;
deleting the only week of a year removes that file entirely; deleting one
of several weeks keeps the file and leaves exactly the remaining weeks in
it.  File names in the directory are pairwise distinct, as in any real
directory. -/
theorem c9_fs_year_file_lifecycle (dir : FsDirectory) (input : SaveWeeklyDataInput)
    (k : WeekIdentifier) (hnodup : (dir.map Prod.fst).Nodup) :
    ((∃ yd, findEntry (fsSave dir input).1 (getFileName input.weekId.year) = some yd ∧
        lookupWeek yd.weeks input.weekId.week = some (fsSave dir input).2) ∧
      (∀ name, name ≠ getFileName input.weekId.year →
        findEntry (fsSave dir input).1 name = findEntry dir name)) ∧
    (∀ yd r, readYearFile dir k.year = some yd → yd.weeks = [(k.week, r)] →
      findEntry (fsDelete dir k) (getFileName k.year) = none) ∧
    (∀ yd w' r', readYearFile dir k.year = some yd → (w', r') ∈ yd.weeks → w' ≠ k.week →
      readYearFile (fsDelete dir k) k.year =
        some { year := yd.year, weeks := weeksRemove yd.weeks k.week } ∧
      ∀ w, w ≠ k.week →
        lookupWeek (weeksRemove yd.weeks k.week) w = lookupWeek yd.weeks w) := by
  refine ⟨⟨?_, ?_⟩, ?_, ?_⟩
  · refine ⟨_, findEntry_writeYearFile_self dir input.weekId.year _, ?_⟩
    exact lookupWeek_weeksInsert_self _ _ _
  · intro name hname
    exact findEntry_writeYearFile_other dir input.weekId.year _ name hname
  · intro yd r hread honly
    have hread' : findEntry dir (getFileName k.year) = some yd := hread
    have hempty : weeksRemove yd.weeks k.week = [] := by
      rw [honly]; simp [weeksRemove]
    have hrm : findEntry (removeEntry dir (getFileName k.year)) (getFileName k.year) = none :=
      findEntry_removeEntry_self dir _ hnodup
    simp [fsDelete, readYearFile, hread', hempty, hrm]
  · intro yd w' r' hread hmem hw'
    have hread' : findEntry dir (getFileName k.year) = some yd := hread
    have hne : weeksRemove yd.weeks k.week ≠ [] := by
      intro hnil
      have : (w', r') ∈ weeksRemove yd.weeks k.week := by
        simp only [weeksRemove, List.mem_filter]
        exact ⟨hmem, by simp [hw']⟩
      rw [hnil] at this
      exact absurd this (List.not_mem_nil _)
    refine ⟨?_, fun w hw => lookupWeek_weeksRemove_other yd.weeks k.week w hw⟩
    simp [fsDelete, readYearFile, hread', hne, findEntry_writeYearFile_self]

/-- C9 witness: a directory holding a 2023 file with a single week and a
2024 file with two weeks; the save, the only-week delete and the
one-of-several delete cases of the theorem all apply with their hypotheses
discharged on it. -/
theorem c9_witness :
    ((∃ yd, findEntry (fsSave
        [("work-journal-2023.json", ⟨2023, [(7, ⟨⟨2023, 7⟩, "😀", "", ""⟩)]⟩),
         ("work-journal-2024.json", ⟨2024, [(15, ⟨⟨2024, 15⟩, "🙂", "A", ""⟩),
                                            (20, ⟨⟨2024, 20⟩, "😐", "", "C"⟩)]⟩)]
        ⟨⟨2024, 21⟩, some "😎", none, none⟩).1 (getFileName 2024) = some yd ∧
      lookupWeek yd.weeks 21 = some (fsSave
        [("work-journal-2023.json", ⟨2023, [(7, ⟨⟨2023, 7⟩, "😀", "", ""⟩)]⟩),
         ("work-journal-2024.json", ⟨2024, [(15, ⟨⟨2024, 15⟩, "🙂", "A", ""⟩),
                                            (20, ⟨⟨2024, 20⟩, "😐", "", "C"⟩)]⟩)]
        ⟨⟨2024, 21⟩, some "😎", none, none⟩).2) ∧
     findEntry (fsDelete
        [("work-journal-2023.json", ⟨2023, [(7, ⟨⟨2023, 7⟩, "😀", "", ""⟩)]⟩),
         ("work-journal-2024.json", ⟨2024, [(15, ⟨⟨2024, 15⟩, "🙂", "A", ""⟩),
                                            (20, ⟨⟨2024, 20⟩, "😐", "", "C"⟩)]⟩)]
        ⟨2023, 7⟩) (getFileName 2023) = none ∧
     readYearFile (fsDelete
        [("work-journal-2023.json", ⟨2023, [(7, ⟨⟨2023, 7⟩, "😀", "", ""⟩)]⟩),
         ("work-journal-2024.json", ⟨2024, [(15, ⟨⟨2024, 15⟩, "🙂", "A", ""⟩),
                                            (20, ⟨⟨2024, 20⟩, "😐", "", "C"⟩)]⟩)]
        ⟨2024, 15⟩) 2024 =
      some ⟨2024, weeksRemove [(15, ⟨⟨2024, 15⟩, "🙂", "A", ""⟩),
                               (20, ⟨⟨2024, 20⟩, "😐", "", "C"⟩)] 15⟩) := by
  have hsave := c9_fs_year_file_lifecycle
    [("work-journal-2023.json", ⟨2023, [(7, ⟨⟨2023, 7⟩, "😀", "", ""⟩)]⟩),
     ("work-journal-2024.json", ⟨2024, [(15, ⟨⟨2024, 15⟩, "🙂", "A", ""⟩),
                                        (20, ⟨⟨2024, 20⟩, "😐", "", "C"⟩)]⟩)]
    ⟨⟨2024, 21⟩, some "😎", none, none⟩ ⟨2023, 7⟩ (by decide)
  have hdel := c9_fs_year_file_lifecycle
    [("work-journal-2023.json", ⟨2023, [(7, ⟨⟨2023, 7⟩, "😀", "", ""⟩)]⟩),
     ("work-journal-2024.json", ⟨2024, [(15, ⟨⟨2024, 15⟩, "🙂", "A", ""⟩),
                                        (20, ⟨⟨2024, 20⟩, "😐", "", "C"⟩)]⟩)]
    ⟨⟨2024, 21⟩, some "😎", none, none⟩ ⟨2024, 15⟩ (by decide)
  refine ⟨hsave.1.1, ?_, ?_⟩
  · exact hsave.2.1 ⟨2023, [(7, ⟨⟨2023, 7⟩, "😀", "", ""⟩)]⟩ ⟨⟨2023, 7⟩, "😀", "", ""⟩
      (by decide) (by decide)
  · exact (hdel.2.2 ⟨2024, [(15, ⟨⟨2024, 15⟩, "🙂", "A", ""⟩),
        (20, ⟨⟨2024, 20⟩, "😐", "", "C"⟩)]⟩ 20 ⟨⟨2024, 20⟩, "😐", "", "C"⟩
      (by decide) (by decide) (by decide)).1

/-! ## Claim C3: getRange with end before start

The file-system layer returns an empty sequence.  The IndexedDB layer does
not: its `getRange` constructs `IDBKeyRange.bound(lower, upper)` with
`lower > upper`, which the IndexedDB specification defines to throw a
`DataError`, so the returned promise rejects instead of resolving to an
empty array. -/

theorem foldl_append_eq_join {α β : Type} (g : α → List β) (l : List α)
    (init : List β) :
    l.foldl (fun acc e => acc ++ g e) init = init ++ (l.map g).flatten := by
  induction l generalizing init with
  | nil => simp
  | cons e rest ih => simp [ih, List.append_assoc]

theorem not_fsInRange_of_rev {wid s e : WeekIdentifier} (h : keyLt e s) :
    ¬fsInRange wid s e := by
  unfold keyLt fsInRange at *; omega

theorem fsRangeContribution_eq_nil_of_rev (dir : FsDirectory) {s e : WeekIdentifier}
    (h : keyLt e s) (entry : String × YearJournalData) :
    fsRangeContribution dir s e entry = [] := by
  unfold fsRangeContribution
  by_cases h1 : strDropEq entry.1 ".json"
  · simp only [h1, if_true]
    cases parseFileName entry.1 with
    | none => rfl
    | some year =>
      dsimp only
      by_cases h2 : year ≠ 0 ∧ s.year ≤ year ∧ year ≤ e.year
      · rw [if_pos h2]
        cases readYearFile dir year with
        | none => rfl
        | some yd =>
          simp only [weeksInRange]
          have : ∀ w ∈ yd.weeks, ¬(decide (fsInRange ⟨year, w.1⟩ s e) = true) := by
            intro w _ hw
            exact not_fsInRange_of_rev h (of_decide_eq_true hw)
          rw [List.filter_eq_nil_iff.mpr this]
          rfl
      · rw [if_neg h2]
  · simp [h1]

/-- C3 counterexample: with a reversed range, the IndexedDB layer model
rejects with the `DataError` of `IDBKeyRange.bound` rather than resolving
to the empty sequence the claim requires of every layer. -/
theorem c3_counterexample :
    idbGetRange [⟨⟨2024, 7⟩, "🙂", "A", ""⟩] ⟨2024, 10⟩ ⟨2024, 5⟩ =
      .error .dataError ∧
    idbGetRange [⟨⟨2024, 7⟩, "🙂", "A", ""⟩] ⟨2024, 10⟩ ⟨2024, 5⟩ ≠
      .ok ([] : List WeeklyData) := by
  have h : idbGetRange [⟨⟨2024, 7⟩, "🙂", "A", ""⟩] ⟨2024, 10⟩ ⟨2024, 5⟩ =
      .error .dataError := rfl
  exact ⟨h, by rw [h]; exact fun hh => Except.noConfusion hh⟩

/-- C3 amended: with an end key lexicographically before the start key the
file-system layer returns an empty sequence without failing, while the
IndexedDB layer fails with the `DataError` that `IDBKeyRange.bound` throws
for a lower bound greater than the upper bound. -/
theorem c3_amended_reversed_range (dir : FsDirectory) (store : List WeeklyData)
    (s e : WeekIdentifier) (h : keyLt e s) :
    fsGetRange dir s e = [] ∧ idbGetRange store s e = .error .dataError := by
  constructor
  · unfold fsGetRange
    rw [show (fun acc entry => acc ++ fsRangeContribution dir s e entry) =
        (fun acc entry => acc ++ (fun x => fsRangeContribution dir s e x) entry) from rfl,
      foldl_append_eq_join]
    have hjoin : (dir.map (fun x => fsRangeContribution dir s e x)).flatten = [] := by
      rw [List.flatten_eq_nil_iff]
      intro l hl
      rw [List.mem_map] at hl
      obtain ⟨entry, _, hentry⟩ := hl
      rw [← hentry]
      exact fsRangeContribution_eq_nil_of_rev dir h entry
    rw [List.nil_append, hjoin]
    rfl
  · unfold idbGetRange
    rw [if_pos h]

/-- C3 witness for the amended statement, at the scenario range
`{2024,10}` to `{2024,5}`. -/
theorem c3_witness :
    keyLt ⟨2024, 5⟩ ⟨2024, 10⟩ ∧
    fsGetRange [("work-journal-2024.json", ⟨2024, [(7, ⟨⟨2024, 7⟩, "🙂", "A", ""⟩)]⟩)]
      ⟨2024, 10⟩ ⟨2024, 5⟩ = [] ∧
    idbGetRange [⟨⟨2024, 7⟩, "🙂", "A", ""⟩] ⟨2024, 10⟩ ⟨2024, 5⟩ = .error .dataError := by
  have h := c3_amended_reversed_range
    [("work-journal-2024.json", ⟨2024, [(7, ⟨⟨2024, 7⟩, "🙂", "A", ""⟩)]⟩)]
    [⟨⟨2024, 7⟩, "🙂", "A", ""⟩] ⟨2024, 10⟩ ⟨2024, 5⟩ (by decide)
  exact ⟨by decide, h.1, h.2⟩

/-! ## Claim C5: getRange results are sorted ascending by (year, week) -/

/-- C5: in the success case the IndexedDB layer returns its records in
ascending composite-key order (the store itself is key-ordered, which the
`Pairwise` hypothesis expresses), and the file-system layer sorts its
collected records ascending by `(year, week)` for every directory and
range, so a range spanning a year boundary lists the earlier year first. -/
theorem c5_getRange_sorted (store : List WeeklyData) (dir : FsDirectory)
    (s e : WeekIdentifier) :
    (∀ l, List.Pairwise recordLt store → idbGetRange store s e = .ok l →
      List.Sorted recordLe l) ∧
    List.Sorted recordLe (fsGetRange dir s e) := by
  constructor
  · intro l hsorted hok
    unfold idbGetRange at hok
    by_cases h : keyLt e s
    · rw [if_pos h] at hok
      exact absurd hok (fun hh => Except.noConfusion hh)
    · rw [if_neg h] at hok
      have hl : l = store.filter (fun x => decide (keyLe s x.weekId ∧ keyLe x.weekId e)) := by
        cases hok; rfl
      rw [hl]
      exact ((hsorted.filter _).imp fun h => recordLe_of_recordLt h)
  · exact List.sorted_insertionSort recordLe _

/-- C5 witness: the year-boundary range `{2023,52}` to `{2024,1}` on both
layers returns the 2023 record before the 2024 record, and the theorem
yields sortedness with its hypotheses discharged. -/
theorem c5_witness :
    idbGetRange [⟨⟨2023, 52⟩, "🙂", "A", ""⟩, ⟨⟨2024, 1⟩, "😀", "", "C"⟩]
        ⟨2023, 52⟩ ⟨2024, 1⟩ =
      .ok [⟨⟨2023, 52⟩, "🙂", "A", ""⟩, ⟨⟨2024, 1⟩, "😀", "", "C"⟩] ∧
    fsGetRange [("work-journal-2023.json", ⟨2023, [(52, ⟨⟨2023, 52⟩, "🙂", "A", ""⟩)]⟩),
        ("work-journal-2024.json", ⟨2024, [(1, ⟨⟨2024, 1⟩, "😀", "", "C"⟩)]⟩)]
        ⟨2023, 52⟩ ⟨2024, 1⟩ =
      [⟨⟨2023, 52⟩, "🙂", "A", ""⟩, ⟨⟨2024, 1⟩, "😀", "", "C"⟩] ∧
    List.Pairwise recordLt [⟨⟨2023, 52⟩, "🙂", "A", ""⟩, ⟨⟨2024, 1⟩, "😀", "", "C"⟩] ∧
    List.Sorted recordLe [⟨⟨2023, 52⟩, "🙂", "A", ""⟩, ⟨⟨2024, 1⟩, "😀", "", "C"⟩] ∧
    List.Sorted recordLe (fsGetRange
      [("work-journal-2023.json", ⟨2023, [(52, ⟨⟨2023, 52⟩, "🙂", "A", ""⟩)]⟩),
       ("work-journal-2024.json", ⟨2024, [(1, ⟨⟨2024, 1⟩, "😀", "", "C"⟩)]⟩)]
      ⟨2023, 52⟩ ⟨2024, 1⟩) := by
  have h := c5_getRange_sorted
    [⟨⟨2023, 52⟩, "🙂", "A", ""⟩, ⟨⟨2024, 1⟩, "😀", "", "C"⟩]
    [("work-journal-2023.json", ⟨2023, [(52, ⟨⟨2023, 52⟩, "🙂", "A", ""⟩)]⟩),
     ("work-journal-2024.json", ⟨2024, [(1, ⟨⟨2024, 1⟩, "😀", "", "C"⟩)]⟩)]
    ⟨2023, 52⟩ ⟨2024, 1⟩
  refine ⟨rfl, rfl, by decide, ?_, h.2⟩
  exact h.1 [⟨⟨2023, 52⟩, "🙂", "A", ""⟩, ⟨⟨2024, 1⟩, "😀", "", "C"⟩] (by decide) rfl

/-! ## Claim C8: getByYear agrees with getRange over weeks 1 to 53

For the IndexedDB layer this is definitional: `getByYear` literally
delegates.  For the file-system layer the two paths are different code
(single-file read and week-sort versus directory scan, filter and
`(year, week)`-sort), and they agree on every well-formed directory state:
one in which file names are distinct and name their own year, and each
year file holds ISO week keys 1 to 53 in ascending order with records
keyed consistently.  Every state reachable through the layer operations
from an empty granted directory is of this shape. -/

/-- Well-formedness of a granted directory (see the section comment). -/
def DirWF (dir : FsDirectory) : Prop :=
  (dir.map Prod.fst).Nodup ∧
  ∀ e ∈ dir,
    e.1 = getFileName e.2.year ∧
    parseFileName e.1 = some e.2.year ∧
    List.Pairwise (fun a b => a.1 < b.1) e.2.weeks ∧
    ∀ p ∈ e.2.weeks, 1 ≤ p.1 ∧ p.1 ≤ 53 ∧ p.2.weekId = ⟨e.2.year, p.1⟩

instance (dir : FsDirectory) : Decidable (DirWF dir) := by
  unfold DirWF; exact inferInstance

theorem strDropEq_of_parseFileName {name : String} {v : Nat}
    (h : parseFileName name = some v) : strDropEq name ".json" = true := by
  unfold parseFileName at h
  by_cases hc : (strTakeEq name "work-journal-" && strDropEq name ".json") = true
  · exact ((Bool.and_eq_true _ _).mp hc).2
  · rw [if_neg hc] at h
    exact absurd h (by simp)

theorem findEntry_of_mem_nodup (dir : FsDirectory) (e : String × YearJournalData)
    (he : e ∈ dir) (hnodup : (dir.map Prod.fst).Nodup) :
    findEntry dir e.1 = some e.2 := by
  induction dir with
  | nil => exact absurd he (List.not_mem_nil _)
  | cons d rest ih =>
    simp only [List.map, List.nodup_cons] at hnodup
    rcases List.mem_cons.mp he with heq | hmem
    · rw [heq, findEntry, if_pos rfl]
    · have hne : ¬(d.1 = e.1) := by
        intro hh
        exact hnodup.1 (hh ▸ (List.mem_map.mpr ⟨e, hmem, rfl⟩))
      rw [findEntry, if_neg hne]
      exact ih hmem hnodup.2

theorem findEntry_mem (dir : FsDirectory) (name : String) (yd : YearJournalData)
    (h : findEntry dir name = some yd) : (name, yd) ∈ dir := by
  induction dir with
  | nil => simp [findEntry] at h
  | cons d rest ih =>
    by_cases hd : d.1 = name
    · rw [findEntry, if_pos hd, Option.some.injEq] at h
      exact List.mem_cons.mpr (Or.inl (by rw [← hd, ← h]))
    · rw [findEntry, if_neg hd] at h
      exact List.mem_cons.mpr (Or.inr (ih h))

theorem fsRangeContribution_eq_simple (dir : FsDirectory) (y : Nat) (hy0 : y ≠ 0)
    (hnodup : (dir.map Prod.fst).Nodup)
    (e : String × YearJournalData) (he : e ∈ dir)
    (hname : e.1 = getFileName e.2.year) (hparse : parseFileName e.1 = some e.2.year)
    (hweeks : ∀ p ∈ e.2.weeks, 1 ≤ p.1 ∧ p.1 ≤ 53 ∧ p.2.weekId = ⟨e.2.year, p.1⟩) :
    fsRangeContribution dir ⟨y, 1⟩ ⟨y, 53⟩ e =
      (if e.2.year = y then e.2.weeks.map Prod.snd else []) := by
  unfold fsRangeContribution
  rw [if_pos (strDropEq_of_parseFileName hparse), hparse]
  dsimp only
  by_cases hey : e.2.year = y
  · rw [if_pos ⟨by omega, by omega, by omega⟩, if_pos hey]
    have hread : readYearFile dir e.2.year = some e.2 := by
      rw [readYearFile, ← hname]
      exact findEntry_of_mem_nodup dir e he hnodup
    rw [hread]
    dsimp only
    unfold weeksInRange
    have hall : ∀ p ∈ e.2.weeks, decide (fsInRange ⟨e.2.year, p.1⟩ ⟨y, 1⟩ ⟨y, 53⟩) = true := by
      intro p hp
      obtain ⟨hp1, hp2, _⟩ := hweeks p hp
      apply decide_eq_true
      unfold fsInRange
      dsimp only
      omega
    rw [List.filter_eq_self.mpr hall]
  · rw [if_neg (by omega), if_neg hey]

theorem flatten_simple_contributions (y : Nat)
    (hy : parseFileName (getFileName y) = some y) :
    ∀ dir : FsDirectory, (dir.map Prod.fst).Nodup →
      (∀ e ∈ dir, e.1 = getFileName e.2.year ∧ parseFileName e.1 = some e.2.year) →
      (dir.map (fun e => if e.2.year = y then e.2.weeks.map Prod.snd else [])).flatten =
      (match findEntry dir (getFileName y) with
       | some yd => yd.weeks.map Prod.snd
       | none => []) := by
  intro dir
  induction dir with
  | nil => intro _ _; rfl
  | cons d rest ih =>
    intro hnodup hnames
    simp only [List.map, List.nodup_cons] at hnodup
    obtain ⟨hdname, hdparse⟩ := hnames d (List.mem_cons_self d rest)
    by_cases hdy : d.2.year = y
    · have hdfn : d.1 = getFileName y := by rw [hdname, hdy]
      have hrest : ∀ e ∈ rest, (if e.2.year = y then e.2.weeks.map Prod.snd else []) = [] := by
        intro e hemem
        obtain ⟨hename, heparse⟩ := hnames e (List.mem_cons_of_mem d hemem)
        by_cases hey : e.2.year = y
        · exfalso
          have : e.1 = getFileName y := by rw [hename, hey]
          exact hnodup.1 (hdfn ▸ this ▸ List.mem_map.mpr ⟨e, hemem, rfl⟩)
        · rw [if_neg hey]
      have hflat : (rest.map (fun e => if e.2.year = y then e.2.weeks.map Prod.snd
          else [])).flatten = [] := by
        rw [List.flatten_eq_nil_iff]
        intro l hl
        rw [List.mem_map] at hl
        obtain ⟨e, hemem, hentry⟩ := hl
        rw [← hentry]
        exact hrest e hemem
      simp only [List.map, List.flatten, hflat, List.append_nil, if_pos hdy]
      rw [findEntry, if_pos hdfn]
    · have hdfn : ¬(d.1 = getFileName y) := by
        intro hh
        rw [hh, hy] at hdparse
        exact hdy (Option.some.injEq _ _ ▸ hdparse).symm
      simp only [List.map, List.flatten, if_neg hdy, List.nil_append]
      rw [findEntry, if_neg hdfn]
      exact ih hnodup.2 (fun e hemem => hnames e (List.mem_cons_of_mem d hemem))

/-- C8: for every year, `getByYear` returns the same records in the same
order as `getRange({year, week: 1}, {year, week: 53})` — definitionally in
the IndexedDB layer, and on every well-formed directory in the file-system
layer (whether the year has 52 or 53 ISO weeks, since only weeks that
actually exist are stored and returned). -/
theorem c8_getByYear_eq_getRange (store : List WeeklyData) (dir : FsDirectory)
    (y : Nat) (hwf : DirWF dir) (hy : parseFileName (getFileName y) = some y) :
    idbGetByYear store y = idbGetRange store ⟨y, 1⟩ ⟨y, 53⟩ ∧
    fsGetByYear dir y = fsGetRange dir ⟨y, 1⟩ ⟨y, 53⟩ := by
  refine ⟨rfl, ?_⟩
  obtain ⟨hnodup, hentries⟩ := hwf
  have hy0 : y ≠ 0 := by
    intro h0
    rw [h0] at hy
    exact absurd hy (by decide)
  have hmapeq : dir.map (fun e => fsRangeContribution dir ⟨y, 1⟩ ⟨y, 53⟩ e) =
      dir.map (fun e => if e.2.year = y then e.2.weeks.map Prod.snd else []) := by
    apply List.map_congr_left
    intro e hemem
    obtain ⟨hname, hparse, _, hweeks⟩ := hentries e hemem
    exact fsRangeContribution_eq_simple dir y hy0 hnodup e hemem hname hparse hweeks
  have hflat := flatten_simple_contributions y hy dir hnodup
    (fun e hemem => ⟨(hentries e hemem).1, (hentries e hemem).2.1⟩)
  unfold fsGetRange
  rw [show (fun acc entry => acc ++ fsRangeContribution dir ⟨y, 1⟩ ⟨y, 53⟩ entry) =
      (fun acc entry => acc ++ (fun e => fsRangeContribution dir ⟨y, 1⟩ ⟨y, 53⟩ e) entry)
      from rfl, foldl_append_eq_join, List.nil_append, hmapeq, hflat]
  unfold fsGetByYear readYearFile
  cases hfind : findEntry dir (getFileName y) with
  | none => rfl
  | some yd =>
    have hydmem : (getFileName y, yd) ∈ dir := findEntry_mem dir _ yd hfind
    obtain ⟨_, _, hpair, hweeks⟩ := hentries _ hydmem
    have hsorted1 : List.Sorted weekFieldLe (yd.weeks.map Prod.snd) := by
      apply List.pairwise_map.mpr
      apply List.Pairwise.imp_of_mem ?_ hpair
      intro a b ha hb hab
      unfold weekFieldLe
      rw [(hweeks a ha).2.2, (hweeks b hb).2.2]
      exact Nat.le_of_lt hab
    have hsorted2 : List.Sorted recordLe (yd.weeks.map Prod.snd) := by
      apply List.pairwise_map.mpr
      apply List.Pairwise.imp_of_mem ?_ hpair
      intro a b ha hb hab
      unfold recordLe
      rw [(hweeks a ha).2.2, (hweeks b hb).2.2]
      unfold keyLe
      dsimp only
      omega
    dsimp only
    rw [hsorted1.insertionSort_eq, hsorted2.insertionSort_eq]

/-- C8 witness: a well-formed directory with files for 2023 and 2024 and a
matching IndexedDB store; the theorem applies at year 2024 with both
hypotheses discharged by computation. -/
theorem c8_witness :
    DirWF [("work-journal-2023.json", ⟨2023, [(52, ⟨⟨2023, 52⟩, "🙂", "A", ""⟩)]⟩),
           ("work-journal-2024.json", ⟨2024, [(15, ⟨⟨2024, 15⟩, "😀", "", "C"⟩),
                                              (53, ⟨⟨2024, 53⟩, "😐", "B", ""⟩)]⟩)] ∧
    parseFileName (getFileName 2024) = some 2024 ∧
    idbGetByYear [⟨⟨2024, 15⟩, "😀", "", "C"⟩] 2024 =
      idbGetRange [⟨⟨2024, 15⟩, "😀", "", "C"⟩] ⟨2024, 1⟩ ⟨2024, 53⟩ ∧
    fsGetByYear [("work-journal-2023.json", ⟨2023, [(52, ⟨⟨2023, 52⟩, "🙂", "A", ""⟩)]⟩),
                 ("work-journal-2024.json", ⟨2024, [(15, ⟨⟨2024, 15⟩, "😀", "", "C"⟩),
                                                    (53, ⟨⟨2024, 53⟩, "😐", "B", ""⟩)]⟩)] 2024 =
      fsGetRange [("work-journal-2023.json", ⟨2023, [(52, ⟨⟨2023, 52⟩, "🙂", "A", ""⟩)]⟩),
                  ("work-journal-2024.json", ⟨2024, [(15, ⟨⟨2024, 15⟩, "😀", "", "C"⟩),
                                                     (53, ⟨⟨2024, 53⟩, "😐", "B", ""⟩)]⟩)]
        ⟨2024, 1⟩ ⟨2024, 53⟩ := by
  have h := c8_getByYear_eq_getRange [⟨⟨2024, 15⟩, "😀", "", "C"⟩]
    [("work-journal-2023.json", ⟨2023, [(52, ⟨⟨2023, 52⟩, "🙂", "A", ""⟩)]⟩),
     ("work-journal-2024.json", ⟨2024, [(15, ⟨⟨2024, 15⟩, "😀", "", "C"⟩),
                                        (53, ⟨⟨2024, 53⟩, "😐", "B", ""⟩)]⟩)] 2024
    (by decide) (by decide)
  exact ⟨by decide, by decide, h.1, h.2⟩

/-! ## Claim C2: read fallback honours fallbackOnError -/

theorem sortLayers_singleton (l : LayerModel) : sortLayers [l] = [l] := rfl

/-- C2: against a primary layer whose read operations all reject and a
single working secondary layer, every read operation of the repository
returns the secondary layer data when `fallbackOnError` is true, and
rejects with exactly the primary layer original error, unwrapped, when
`fallbackOnError` is false — in either `syncWritesImmediately` mode. -/
theorem c2_fallback_reads (p s : LayerModel) (b : Bool) (k a bnd : WeekIdentifier)
    (y : Nat) (e1 e2 e3 e4 : LayerError) (r : Option WeeklyData)
    (lr ly : List WeeklyData) (w : Finset Nat)
    (hp1 : p.getOp k = .error e1) (hp2 : p.getRangeOp a bnd = .error e2)
    (hp3 : p.getByYearOp y = .error e3) (hp4 : p.getWeeksWithDataOp y = .error e4)
    (hs1 : s.getOp k = .ok r) (hs2 : s.getRangeOp a bnd = .ok lr)
    (hs3 : s.getByYearOp y = .ok ly) (hs4 : s.getWeeksWithDataOp y = .ok w) :
    (repoGet ⟨p, [s], b, true⟩ k = .ok r ∧
      repoGetRange ⟨p, [s], b, true⟩ a bnd = .ok lr ∧
      repoGetByYear ⟨p, [s], b, true⟩ y = .ok ly ∧
      repoGetWeeksWithData ⟨p, [s], b, true⟩ y = .ok w) ∧
    (repoGet ⟨p, [s], b, false⟩ k = .error e1 ∧
      repoGetRange ⟨p, [s], b, false⟩ a bnd = .error e2 ∧
      repoGetByYear ⟨p, [s], b, false⟩ y = .error e3 ∧
      repoGetWeeksWithData ⟨p, [s], b, false⟩ y = .error e4) := by
  refine ⟨⟨?_, ?_, ?_, ?_⟩, ?_, ?_, ?_, ?_⟩
  · cases r with
    | none => simp [repoGet, hp1, sortLayers_singleton, fallbackGetLoop, hs1]
    | some x => simp [repoGet, hp1, sortLayers_singleton, fallbackGetLoop, hs1]
  · simp [repoGetRange, hp2, sortLayers_singleton, fallbackGetRangeLoop, hs2]
  · simp [repoGetByYear, hp3, sortLayers_singleton, fallbackGetByYearLoop, hs3]
  · simp [repoGetWeeksWithData, hp4, sortLayers_singleton,
      fallbackGetWeeksWithDataLoop, hs4]
  · simp [repoGet, hp1]
  · simp [repoGetRange, hp2]
  · simp [repoGetByYear, hp3]
  · simp [repoGetWeeksWithData, hp4]

/-- A primary layer whose every operation rejects. -/
def c2PrimaryDown : LayerModel where
  name := "indexeddb"
  priority := 100
  getOp := fun _ => .error "primary down"
  getRangeOp := fun _ _ => .error "primary down"
  getByYearOp := fun _ => .error "primary down"
  getWeeksWithDataOp := fun _ => .error "primary down"
  saveOp := fun _ => .error "primary down"
  deleteOp := fun _ => .error "primary down"

/-- A working secondary layer holding the week `{2024, 15}` record. -/
def c2Secondary : LayerModel where
  name := "filesystem"
  priority := 50
  getOp := fun k => .ok (if k = ⟨2024, 15⟩ then some ⟨⟨2024, 15⟩, "🙂", "A", ""⟩ else none)
  getRangeOp := fun _ _ => .ok [⟨⟨2024, 15⟩, "🙂", "A", ""⟩]
  getByYearOp := fun _ => .ok [⟨⟨2024, 15⟩, "🙂", "A", ""⟩]
  getWeeksWithDataOp := fun _ => .ok {15}
  saveOp := fun _ => .ok ⟨⟨2024, 15⟩, "🙂", "A", ""⟩
  deleteOp := fun _ => .ok ()

/-- C2 witness at concrete layers, both configuration polarities. -/
theorem c2_witness :
    (repoGet ⟨c2PrimaryDown, [c2Secondary], false, true⟩ ⟨2024, 15⟩ =
        .ok (some ⟨⟨2024, 15⟩, "🙂", "A", ""⟩) ∧
      repoGetRange ⟨c2PrimaryDown, [c2Secondary], false, true⟩ ⟨2024, 1⟩ ⟨2024, 20⟩ =
        .ok [⟨⟨2024, 15⟩, "🙂", "A", ""⟩] ∧
      repoGetByYear ⟨c2PrimaryDown, [c2Secondary], false, true⟩ 2024 =
        .ok [⟨⟨2024, 15⟩, "🙂", "A", ""⟩] ∧
      repoGetWeeksWithData ⟨c2PrimaryDown, [c2Secondary], false, true⟩ 2024 =
        .ok {15}) ∧
    (repoGet ⟨c2PrimaryDown, [c2Secondary], false, false⟩ ⟨2024, 15⟩ =
        .error "primary down" ∧
      repoGetRange ⟨c2PrimaryDown, [c2Secondary], false, false⟩ ⟨2024, 1⟩ ⟨2024, 20⟩ =
        .error "primary down" ∧
      repoGetByYear ⟨c2PrimaryDown, [c2Secondary], false, false⟩ 2024 =
        .error "primary down" ∧
      repoGetWeeksWithData ⟨c2PrimaryDown, [c2Secondary], false, false⟩ 2024 =
        .error "primary down") :=
  c2_fallback_reads c2PrimaryDown c2Secondary false ⟨2024, 15⟩ ⟨2024, 1⟩ ⟨2024, 20⟩ 2024
    "primary down" "primary down" "primary down" "primary down"
    (some ⟨⟨2024, 15⟩, "🙂", "A", ""⟩) [⟨⟨2024, 15⟩, "🙂", "A", ""⟩]
    [⟨⟨2024, 15⟩, "🙂", "A", ""⟩] {15} rfl rfl rfl rfl rfl rfl rfl rfl

/-! ## Claim C4: what the fallback iteration returns

The claim says fallback returns the first successful non-empty result for
every read operation.  That is what `fallbackGet` does for point lookups,
but the range-like helpers return the first result whose promise resolves,
empty or not: a higher-priority secondary that successfully answers with
an empty array shadows a lower-priority secondary that has data. -/

/-- A failing primary for the C4 scenario. -/
def c4PrimaryDown : LayerModel where
  name := "indexeddb"
  priority := 100
  getOp := fun _ => .error "primary down"
  getRangeOp := fun _ _ => .error "primary down"
  getByYearOp := fun _ => .error "primary down"
  getWeeksWithDataOp := fun _ => .error "primary down"
  saveOp := fun _ => .error "primary down"
  deleteOp := fun _ => .error "primary down"

/-- A healthy higher-priority secondary that holds no data at all. -/
def c4EmptySecondary : LayerModel where
  name := "empty-backup"
  priority := 60
  getOp := fun _ => .ok none
  getRangeOp := fun _ _ => .ok []
  getByYearOp := fun _ => .ok []
  getWeeksWithDataOp := fun _ => .ok ∅
  saveOp := fun _ => .error "read-only"
  deleteOp := fun _ => .ok ()

/-- A healthy lower-priority secondary that does hold the data. -/
def c4DataSecondary : LayerModel where
  name := "full-backup"
  priority := 50
  getOp := fun k => .ok (if k = ⟨2024, 15⟩ then some ⟨⟨2024, 15⟩, "🙂", "A", ""⟩ else none)
  getRangeOp := fun _ _ => .ok [⟨⟨2024, 15⟩, "🙂", "A", ""⟩]
  getByYearOp := fun _ => .ok [⟨⟨2024, 15⟩, "🙂", "A", ""⟩]
  getWeeksWithDataOp := fun _ => .ok {15}
  saveOp := fun _ => .ok ⟨⟨2024, 15⟩, "🙂", "A", ""⟩
  deleteOp := fun _ => .ok ()

/-- C4 counterexample: with the failing primary and the two healthy
secondaries, the fallback `getRange` returns the empty answer of the
higher-priority secondary although the lower-priority secondary holds a
non-empty one — the repository does not return the first successful
non-empty result for range-like reads. -/
theorem c4_counterexample :
    repoGetRange ⟨c4PrimaryDown, [c4EmptySecondary, c4DataSecondary], false, true⟩
        ⟨2024, 1⟩ ⟨2024, 20⟩ = .ok [] ∧
    c4DataSecondary.getRangeOp ⟨2024, 1⟩ ⟨2024, 20⟩ =
      .ok [⟨⟨2024, 15⟩, "🙂", "A", ""⟩] ∧
    ([] : List WeeklyData) ≠ [⟨⟨2024, 15⟩, "🙂", "A", ""⟩] :=
  ⟨rfl, rfl, by decide⟩

/-- C4 amended: on primary failure with fallback enabled, the repository
iterates the secondary layers in descending priority order; for `get` it
skips rejecting layers and layers that resolve to `null` and returns the
first found record (absent when none does); for `getRange`, `getByYear`
and `getWeeksWithData` it skips rejecting layers and returns the first
result that resolves — even an empty one — and an empty sequence/set when
every secondary rejects.  No error is raised merely because fallback is
exhausted. -/
theorem c4_amended_fallback_first_success :
    (∀ layers : List LayerModel,
      (sortLayers layers).Perm layers ∧ (sortLayers layers).Sorted priorityGe) ∧
    (∀ (l : LayerModel) (rest : List LayerModel) (k : WeekIdentifier),
      (∀ rec, l.getOp k = .ok (some rec) → fallbackGetLoop (l :: rest) k = some rec) ∧
      (l.getOp k = .ok none → fallbackGetLoop (l :: rest) k = fallbackGetLoop rest k) ∧
      (∀ e, l.getOp k = .error e → fallbackGetLoop (l :: rest) k = fallbackGetLoop rest k)) ∧
    (∀ k, fallbackGetLoop [] k = none) ∧
    (∀ (l : LayerModel) (rest : List LayerModel) (a b : WeekIdentifier) (y : Nat),
      (∀ v, l.getRangeOp a b = .ok v → fallbackGetRangeLoop (l :: rest) a b = v) ∧
      (∀ e, l.getRangeOp a b = .error e →
        fallbackGetRangeLoop (l :: rest) a b = fallbackGetRangeLoop rest a b) ∧
      (∀ v, l.getByYearOp y = .ok v → fallbackGetByYearLoop (l :: rest) y = v) ∧
      (∀ e, l.getByYearOp y = .error e →
        fallbackGetByYearLoop (l :: rest) y = fallbackGetByYearLoop rest y) ∧
      (∀ v, l.getWeeksWithDataOp y = .ok v → fallbackGetWeeksWithDataLoop (l :: rest) y = v) ∧
      (∀ e, l.getWeeksWithDataOp y = .error e →
        fallbackGetWeeksWithDataLoop (l :: rest) y = fallbackGetWeeksWithDataLoop rest y)) ∧
    (∀ a b, fallbackGetRangeLoop [] a b = []) ∧
    (∀ y, fallbackGetByYearLoop [] y = []) ∧
    (∀ y, fallbackGetWeeksWithDataLoop [] y = ∅) ∧
    (∀ (cfg : LayeredRepositoryConfig) (k : WeekIdentifier) (e : LayerError),
      cfg.fallbackOnError = true → cfg.primaryLayer.getOp k = .error e →
      repoGet cfg k = .ok (fallbackGetLoop (sortLayers cfg.secondaryLayers) k)) ∧
    (∀ (cfg : LayeredRepositoryConfig) (a b : WeekIdentifier) (e : LayerError),
      cfg.fallbackOnError = true → cfg.primaryLayer.getRangeOp a b = .error e →
      repoGetRange cfg a b = .ok (fallbackGetRangeLoop (sortLayers cfg.secondaryLayers) a b)) ∧
    (∀ (cfg : LayeredRepositoryConfig) (y : Nat) (e : LayerError),
      cfg.fallbackOnError = true → cfg.primaryLayer.getByYearOp y = .error e →
      repoGetByYear cfg y = .ok (fallbackGetByYearLoop (sortLayers cfg.secondaryLayers) y)) ∧
    (∀ (cfg : LayeredRepositoryConfig) (y : Nat) (e : LayerError),
      cfg.fallbackOnError = true → cfg.primaryLayer.getWeeksWithDataOp y = .error e →
      repoGetWeeksWithData cfg y =
        .ok (fallbackGetWeeksWithDataLoop (sortLayers cfg.secondaryLayers) y)) := by
  refine ⟨?_, ?_, ?_, ?_, ?_, ?_, ?_, ?_, ?_, ?_, ?_⟩
  · exact fun layers =>
      ⟨List.perm_insertionSort priorityGe layers,
       List.sorted_insertionSort priorityGe layers⟩
  · intro l rest k
    refine ⟨?_, ?_, ?_⟩
    · intro rec h; simp [fallbackGetLoop, h]
    · intro h; simp [fallbackGetLoop, h]
    · intro e h; simp [fallbackGetLoop, h]
  · intro k; rfl
  · intro l rest a b y
    refine ⟨?_, ?_, ?_, ?_, ?_, ?_⟩
    · intro v h; simp [fallbackGetRangeLoop, h]
    · intro e h; simp [fallbackGetRangeLoop, h]
    · intro v h; simp [fallbackGetByYearLoop, h]
    · intro e h; simp [fallbackGetByYearLoop, h]
    · intro v h; simp [fallbackGetWeeksWithDataLoop, h]
    · intro e h; simp [fallbackGetWeeksWithDataLoop, h]
  · intro a b; rfl
  · intro y; rfl
  · intro y; rfl
  · intro cfg k e hf hp; simp [repoGet, hp, hf]
  · intro cfg a b e hf hp; simp [repoGetRange, hp, hf]
  · intro cfg y e hf hp; simp [repoGetByYear, hp, hf]
  · intro cfg y e hf hp; simp [repoGetWeeksWithData, hp, hf]

/-- C4 witness for the amended statement at the concrete C4 layers. -/
theorem c4_witness :
    (sortLayers [c4DataSecondary, c4EmptySecondary]).Perm
      [c4DataSecondary, c4EmptySecondary] ∧
    (sortLayers [c4DataSecondary, c4EmptySecondary]).Sorted priorityGe ∧
    fallbackGetRangeLoop [c4EmptySecondary, c4DataSecondary] ⟨2024, 1⟩ ⟨2024, 20⟩ = [] ∧
    fallbackGetLoop [c4EmptySecondary, c4DataSecondary] ⟨2024, 15⟩ =
      some ⟨⟨2024, 15⟩, "🙂", "A", ""⟩ ∧
    fallbackGetWeeksWithDataLoop ([] : List LayerModel) 2024 = ∅ ∧
    repoGetRange ⟨c4PrimaryDown, [c4EmptySecondary, c4DataSecondary], false, true⟩
        ⟨2024, 1⟩ ⟨2024, 20⟩ =
      .ok (fallbackGetRangeLoop (sortLayers [c4EmptySecondary, c4DataSecondary])
        ⟨2024, 1⟩ ⟨2024, 20⟩) := by
  have h := c4_amended_fallback_first_success
  refine ⟨(h.1 [c4DataSecondary, c4EmptySecondary]).1,
    (h.1 [c4DataSecondary, c4EmptySecondary]).2, ?_, ?_, h.2.2.2.2.2.2.1 2024, ?_⟩
  · have hstep := (h.2.2.2.1 c4EmptySecondary [c4DataSecondary] ⟨2024, 1⟩ ⟨2024, 20⟩ 2024).1
    exact hstep [] rfl
  · have hskip := (h.2.1 c4EmptySecondary [c4DataSecondary] ⟨2024, 15⟩).2.1 rfl
    have hfound := (h.2.1 c4DataSecondary [] ⟨2024, 15⟩).1
      ⟨⟨2024, 15⟩, "🙂", "A", ""⟩ rfl
    rw [hskip, hfound]
  · exact h.2.2.2.2.2.2.2.2.1
      ⟨c4PrimaryDown, [c4EmptySecondary, c4DataSecondary], false, true⟩
      ⟨2024, 1⟩ ⟨2024, 20⟩ "primary down" rfl rfl

/-! ## Claim C6: the primary save decides the repository save -/

/-- C6: whenever the primary layer save resolves with a record, the
repository save resolves with exactly that record, for any secondary
layers and either `syncWritesImmediately` polarity (the configuration is
arbitrary); the settled fan-out list contains one entry per secondary
layer — each layer save is attempted and its failure neither surfaces nor
prevents the others — and the delete path fans out the same way after the
awaited primary delete. -/
theorem c6_save_primary_decides (cfg : LayeredRepositoryConfig)
    (input : SaveWeeklyDataInput) (r : WeeklyData) (k : WeekIdentifier)
    (hsave : cfg.primaryLayer.saveOp input = .ok r) :
    repoSave cfg input = .ok (r, cfg.secondaryLayers.map (fun l => l.saveOp (syncInput r))) ∧
    (cfg.primaryLayer.deleteOp k = .ok () →
      repoDelete cfg k = .ok (cfg.secondaryLayers.map (fun l => l.deleteOp k))) := by
  constructor
  · simp [repoSave, hsave, syncToSecondaryLayers]
  · intro hdel
    simp [repoDelete, hdel]

/-- A primary layer that merges and resolves every save. -/
def c6Primary : LayerModel where
  name := "indexeddb"
  priority := 100
  getOp := fun _ => .ok none
  getRangeOp := fun _ _ => .ok []
  getByYearOp := fun _ => .ok []
  getWeeksWithDataOp := fun _ => .ok ∅
  saveOp := fun i =>
    .ok ⟨i.weekId, i.statusIcon.getD "❔", i.achievements.getD "", i.challenges.getD ""⟩
  deleteOp := fun _ => .ok ()

/-- A secondary layer whose writes always reject. -/
def c6FailingSecondary : LayerModel where
  name := "broken-backup"
  priority := 60
  getOp := fun _ => .error "disk full"
  getRangeOp := fun _ _ => .error "disk full"
  getByYearOp := fun _ => .error "disk full"
  getWeeksWithDataOp := fun _ => .error "disk full"
  saveOp := fun _ => .error "disk full"
  deleteOp := fun _ => .error "disk full"

/-- A secondary layer whose writes succeed. -/
def c6OkSecondary : LayerModel where
  name := "filesystem"
  priority := 50
  getOp := fun _ => .ok none
  getRangeOp := fun _ _ => .ok []
  getByYearOp := fun _ => .ok []
  getWeeksWithDataOp := fun _ => .ok ∅
  saveOp := fun i =>
    .ok ⟨i.weekId, i.statusIcon.getD "❔", i.achievements.getD "", i.challenges.getD ""⟩
  deleteOp := fun _ => .ok ()

/-- C6 witness: with one failing and one working secondary, in both sync
modes, `save` resolves with the record the primary merged, the failing
secondary outcome is recorded but not surfaced, and the working secondary
was still attempted (its settled entry holds the saved record); likewise
for the delete fan-out. -/
theorem c6_witness :
    repoSave ⟨c6Primary, [c6FailingSecondary, c6OkSecondary], true, true⟩
        ⟨⟨2024, 15⟩, some "🙂", some "A", none⟩ =
      .ok (⟨⟨2024, 15⟩, "🙂", "A", ""⟩,
        [.error "disk full", .ok ⟨⟨2024, 15⟩, "🙂", "A", ""⟩]) ∧
    repoSave ⟨c6Primary, [c6FailingSecondary, c6OkSecondary], false, true⟩
        ⟨⟨2024, 15⟩, some "🙂", some "A", none⟩ =
      .ok (⟨⟨2024, 15⟩, "🙂", "A", ""⟩,
        [.error "disk full", .ok ⟨⟨2024, 15⟩, "🙂", "A", ""⟩]) ∧
    repoDelete ⟨c6Primary, [c6FailingSecondary, c6OkSecondary], true, true⟩ ⟨2024, 15⟩ =
      .ok [.error "disk full", .ok ()] := by
  have h1 := c6_save_primary_decides
    ⟨c6Primary, [c6FailingSecondary, c6OkSecondary], true, true⟩
    ⟨⟨2024, 15⟩, some "🙂", some "A", none⟩ ⟨⟨2024, 15⟩, "🙂", "A", ""⟩ ⟨2024, 15⟩ rfl
  have h2 := c6_save_primary_decides
    ⟨c6Primary, [c6FailingSecondary, c6OkSecondary], false, true⟩
    ⟨⟨2024, 15⟩, some "🙂", some "A", none⟩ ⟨⟨2024, 15⟩, "🙂", "A", ""⟩ ⟨2024, 15⟩ rfl
  exact ⟨h1.1.trans rfl, h2.1.trans rfl, (h1.2 rfl).trans rfl⟩

/-! ## Claim C10: RepositoryFactory.configure ignores flag-only changes -/

/-- C10: `configure` recreates the repository only when `enableFileSystem`
or the directory-handle reference changes (or nothing was configured yet);
a call agreeing with the stored configuration on those two fields leaves
the factory state — instance and stored configuration — untouched, so new
`syncWritesImmediately` or `fallbackOnError` values are silently ignored. -/
theorem c10_configure_frame (s : FactoryState) (old config : RepositoryConfig)
    (hold : s.currentConfig = some old)
    (hfs : old.enableFileSystem = config.enableFileSystem)
    (hdh : old.directoryHandle = config.directoryHandle) :
    factoryConfigure s config = s ∧
    (∀ config2 : RepositoryConfig,
      old.enableFileSystem ≠ config2.enableFileSystem ∨
        old.directoryHandle ≠ config2.directoryHandle →
      factoryConfigure s config2 =
        { instanceR := some (createRepository config2), currentConfig := some config2 }) := by
  constructor
  · simp [factoryConfigure, hold, hfs, hdh]
  · intro config2 hdiff
    rcases hdiff with hdiff | hdiff
    · simp [factoryConfigure, hold, bne_iff_ne, hdiff]
    · have : (old.directoryHandle != config2.directoryHandle) = true := by
        simp [bne_iff_ne, hdiff]
      simp [factoryConfigure, hold, this]

/-- C10 witness: a configured factory state; a call with identical
`enableFileSystem` and handle but flipped `syncWritesImmediately` and
`fallbackOnError` changes nothing, while flipping `enableFileSystem`
rebuilds the instance. -/
theorem c10_witness :
    factoryConfigure
      ⟨some (createRepository ⟨true, some 1, some false, some true⟩),
        some ⟨true, some 1, some false, some true⟩⟩
      ⟨true, some 1, some true, some false⟩ =
      ⟨some (createRepository ⟨true, some 1, some false, some true⟩),
        some ⟨true, some 1, some false, some true⟩⟩ ∧
    factoryConfigure
      ⟨some (createRepository ⟨true, some 1, some false, some true⟩),
        some ⟨true, some 1, some false, some true⟩⟩
      ⟨false, some 1, some true, some false⟩ =
      ⟨some (createRepository ⟨false, some 1, some true, some false⟩),
        some ⟨false, some 1, some true, some false⟩⟩ := by
  have h := c10_configure_frame
    ⟨some (createRepository ⟨true, some 1, some false, some true⟩),
      some ⟨true, some 1, some false, some true⟩⟩
    ⟨true, some 1, some false, some true⟩ ⟨true, some 1, some true, some false⟩
    rfl rfl rfl
  exact ⟨h.1, h.2 ⟨false, some 1, some true, some false⟩ (Or.inl (by decide))⟩

end WorkJournal
